import Mathlib

/-!
# Verification of the embed-serial-protocol core

Shallow embedding of the framing codec (`src/packet.rs`), the packet codec and
connection state machine (`src/slip.rs`), and the buffered stream adapters
(`src/serial.rs`).  Byte buffers are modelled as `List Nat` with values below
256 where the Rust type is `u8`; mutation is modelled by explicit list surgery;
`nb::Result` is modelled by an explicit tri-state result; Rust panics (out of
bounds indexing, `copy_from_slice` length mismatch) are modelled by a dedicated
outcome so that they are never confused with returned errors.
-/

namespace EmbedSerial

/-! ## CRC-8/MAXIM-DOW

The source delegates to the `crc` crate's `CRC_8_MAXIM_DOW`
(poly 0x31 reflected = 0x8C, init 0, refin/refout true, xorout 0).
The byte-wise reflected algorithm: xor the byte into the register, then
eight rounds of shift-right with conditional xor of 0x8C. -/

/-- One bit round of the reflected CRC-8/MAXIM update. -/
def crcRound (c : Nat) : Nat :=
  if c % 2 = 1 then (c / 2) ^^^ 0x8C else c / 2

/-- Eight bit rounds: one full byte of the CRC register update. -/
def crcRound8 (c : Nat) : Nat :=
  crcRound (crcRound (crcRound (crcRound (crcRound (crcRound (crcRound (crcRound c)))))))

/-- Absorb one byte into the CRC register. -/
def crcStep (c b : Nat) : Nat := crcRound8 (c ^^^ b)

/-- Model of `crc8(bytes)`: the checksum used by frame encode/decode
(`Crc::<u8>::new(&crc::CRC_8_MAXIM_DOW)`). -/
def crc8 (l : List Nat) : Nat := l.foldl crcStep 0

/-! ## Frame codec constants (`src/packet.rs`) -/

/-- Model of `MAX_DATA_SIZE`: size field is a u8, so max amount of data is 255. -/
def MAX_DATA_SIZE : Nat := 255

/-- Model of `MAX_FRAME_SIZE`: start, size, data, crc, end. -/
def MAX_FRAME_SIZE : Nat := MAX_DATA_SIZE + 4

/-- Model of `DELIMITER`: start byte of a Frame. -/
def DELIMITER : Nat := 0x55

/-- Model of `END_DELIM`: end byte of a Frame. -/
def END_DELIM : Nat := 0xAA

/-- Model of `FrameError` (`src/packet.rs`). -/
inductive FrameError
  | MissingStartDelim
  | MissingEndDelim (index : Nat) (found : Nat)
  | EarlyEndDelim (found_at : Nat) (expected : Nat)
  | EncodeBufferTooSmall (expected : Nat) (found : Nat)
  | DecodeBufferTooSmall (expected_at_least : Nat) (found : Nat)
  | CrcMismatch (calculated : Nat) (found : Nat) (buf : List Nat)
  deriving DecidableEq, Repr

/-- Model of `Frame` (`src/packet.rs`): size byte, payload, crc. -/
structure Frame where
  size : Nat
  data : List Nat
  crc : Nat
  deriving DecidableEq, Repr

/-- Model of `Frame::len`: length in a slice this frame occupies, delimiters included. -/
def Frame.lenBytes (f : Frame) : Nat := f.data.length + 4

/-- Overwrite `l[i..i+d.length)` with `d` (Rust `copy_from_slice` into a
subslice; callers guarantee the range is in bounds). -/
def writeSlice (l : List Nat) (i : Nat) (d : List Nat) : List Nat :=
  l.take i ++ d ++ l.drop (i + d.length)

/-- A frame-encode call either panics (out-of-bounds indexing), fails
returning an error (the partially written destination is carried so that the
mutation visible to the caller can be stated), or succeeds with the written
destination and the byte count. -/
inductive EncodeOutcome
  | panics
  | fails (e : FrameError) (buffer : List Nat)
  | ok (buffer : List Nat) (written : Nat)
  deriving DecidableEq, Repr

/-- Model of `<FrameDataSlice as Encode>::encode` (`src/packet.rs` lines 74-109).
`buffer[0]` and `buffer[1]` are written before the capacity check; a
destination shorter than 2 bytes panics on those writes. -/
def frameEncode (self buffer : List Nat) : EncodeOutcome :=
  if buffer.length < 2 then .panics
  else
    let size := min MAX_DATA_SIZE self.length
    let buf1 := (buffer.set 0 DELIMITER).set 1 size
    if buf1.length < size + 4 then
      .fails (.EncodeBufferTooSmall (size + 4) buf1.length) buf1
    else
      let data := self.take size
      let buf2 := writeSlice buf1 2 data
      let crc := crc8 (size :: data)
      let buf3 := (buf2.set (size + 2) crc).set (size + 3) END_DELIM
      .ok buf3 (size + 4)

/-- Backward scan used by `Frame::decode`: `for i in (0..=start).rev()`,
returning the first index (counting down) whose byte is `END_DELIM`. -/
def findEndFrom (data : List Nat) : Nat → Option Nat
  | 0 => if data.getD 0 0 = END_DELIM then some 0 else none
  | i + 1 => if data.getD (i + 1) 0 = END_DELIM then some (i + 1) else findEndFrom data i

/-- Model of `<Frame as Decode>::decode` (`src/packet.rs` lines 115-182). -/
def frameDecode (data : List Nat) : Except FrameError Frame :=
  if data.length < 4 then
    .error (.DecodeBufferTooSmall 4 data.length)
  else if data.getD 0 0 ≠ DELIMITER then
    .error .MissingStartDelim
  else
    let size := data.getD 1 0
    if data.length < size + 4 then
      .error (.DecodeBufferTooSmall (size + 4) data.length)
    else
      let p := (data.drop 2).take size
      let early : Option FrameError :=
        if data.getD (size + 3) 0 ≠ END_DELIM then
          match findEndFrom data (size + 3) with
          | some i => some (.EarlyEndDelim i (size + 3))
          | none => none
        else none
      match early with
      | some e => .error e
      | none =>
        let calcCrc := crc8 (size :: p)
        let crc := data.getD (size + 2) 0
        if crc ≠ calcCrc then
          .error (.CrcMismatch calcCrc crc data)
        else if data.getD (size + 3) 0 ≠ END_DELIM then
          .error (.MissingEndDelim (size + 3) (data.getD (size + 3) 0))
        else
          .ok ⟨size, p, crc⟩

/-! ## Packet codec and connection (`src/slip.rs`) -/

/-- Model of `START` (`src/slip.rs`): start byte of a slip frame. -/
def START : Nat := 0x55

/-- Model of `Kind` (`src/slip.rs`): 3-bit packet kind tag. -/
inductive Kind
  | Data
  | DataContinue
  | DataLast
  | Ack
  | Error
  | Reserved
  deriving DecidableEq, Repr

/-- Numeric value of a `Kind` (its discriminant): Data=0, DataContinue=1,
DataLast=2, Ack=4, Error=5, Reserved=6. -/
def kindVal : Kind → Nat
  | .Data => 0
  | .DataContinue => 1
  | .DataLast => 2
  | .Ack => 4
  | .Error => 5
  | .Reserved => 6

/-- Model of `Kind::from(u3)` with the `#[fallback]` attribute: unlisted 3-bit
patterns (3 and 7) map to `Reserved`.  `u3::from_u8` keeps the low 3 bits. -/
def kindFromBits (n : Nat) : Kind :=
  match n % 8 with
  | 0 => .Data
  | 1 => .DataContinue
  | 2 => .DataLast
  | 4 => .Ack
  | 5 => .Error
  | _ => .Reserved

/-- Model of `MAX_PACKET_SIZE` (`src/slip.rs`). -/
def MAX_PACKET_SIZE : Nat := 255

/-- Model of `MAX_PACKET_DATA_SIZE = MAX_PACKET_SIZE - PacketHeader::size()` = 252. -/
def MAX_PACKET_DATA_SIZE : Nat := MAX_PACKET_SIZE - 3

/-- Model of `PacketHeader` (`src/slip.rs`): kind, conversation id, payload length. -/
structure PacketHeader where
  kind : Kind
  convo : Nat
  length : Nat
  deriving DecidableEq, Repr

/-- Model of `PacketHeader::bytes`: `[kind as u8, convo_id, length]`. -/
def PacketHeader.bytes (h : PacketHeader) : List Nat :=
  [kindVal h.kind, h.convo, h.length]

/-- Model of `Packet` (`src/slip.rs`). -/
structure Packet where
  header : PacketHeader
  pdata : List Nat
  deriving DecidableEq, Repr

/-- Model of `Packet::new(kind, convo_id, data)`: header length is `data.len() as u8`. -/
def Packet.new (kind : Kind) (convo : Nat) (data : List Nat) : Packet :=
  ⟨⟨kind, convo, data.length % 256⟩, data⟩

/-- Model of `Packet::size() = PacketHeader::size() + self.data.len()`. -/
def Packet.sizeB (p : Packet) : Nat := 3 + p.pdata.length

/-- Model of `PacketError` (`src/slip.rs`). -/
inductive PacketError
  | EncodeBufferTooSmall (expected_at_least : Nat) (found : Nat)
  | DecodeBufferTooSmall (expected_at_least : Nat) (found : Nat)
  | NotEnoughDataForHeader (expected : Nat) (found : Nat)
  deriving DecidableEq, Repr

/-- Model of `<Packet as Encode>::encode` (`src/slip.rs` lines 284-298).  `none`
models the `copy_from_slice` length-mismatch panic, which fires exactly when
`header.length` (the `u8` cast) differs from `data.len()`. -/
def packetEncode (p : Packet) (buffer : List Nat) : Option (Except PacketError (List Nat)) :=
  if buffer.length < p.sizeB then
    some (.error (.EncodeBufferTooSmall p.sizeB buffer.length))
  else if p.header.length ≠ p.pdata.length then
    none
  else
    some (.ok (writeSlice (writeSlice buffer 0 p.header.bytes) 3 p.pdata))

/-- Model of `<Packet as Decode>::decode` (`src/slip.rs` lines 304-325). -/
def packetDecode (data : List Nat) : Except PacketError Packet :=
  if data.length < 3 then
    .error (.NotEnoughDataForHeader 3 data.length)
  else
    let k := kindFromBits (data.getD 0 0)
    let convo := data.getD 1 0
    let l := data.getD 2 0
    if data.length < 3 + l then
      .error (.DecodeBufferTooSmall (3 + l) data.length)
    else
      .ok ⟨⟨k, convo, l⟩, (data.drop 3).take l⟩

/-- Model of `FramingError` (`src/slip.rs`). -/
inductive FramingError
  | MissingStart
  | EncodeBufferTooSmall (expected : Nat) (found : Nat)
  | DecodeBufferTooSmall (expected_at_least : Nat) (found : Nat)
  | CrcMismatch (calculated : Nat) (found : Nat)
  deriving DecidableEq, Repr

/-- Model of `Frame::new(data)` + `<Frame as Encode>::encode` (`src/slip.rs` lines
59-74 and 105-133): slip frames are `START, length, data, crc` with no end
delimiter; the header length is `data.len() as u8`.  `none` models the
`copy_from_slice` panic when the `u8` cast truncated the length. -/
def slipFrameEncode (fdata buffer : List Nat) : Option (Except FramingError (List Nat)) :=
  let length := fdata.length % 256
  let size := 1 + 1 + length + 1
  if buffer.length < size then
    some (.error (.EncodeBufferTooSmall size buffer.length))
  else if length ≠ fdata.length then
    none
  else
    let buf1 := (buffer.set 0 START).set 1 length
    let buf2 := writeSlice buf1 2 fdata
    let crc := crc8 (length :: fdata)
    some (.ok (buf2.set (size - 1) crc))

/-- Model of `ConnectionError` (`src/slip.rs`); `PacketErr`/`FrameErr` stand for the
source's `PacketError`/`FrameError` wrapper variants. -/
inductive ConnectionError
  | PacketErr (e : PacketError)
  | FrameErr (e : FramingError)
  | NoAckResponse
  | UnexpectedConvoId (expected : Nat) (found : Nat)
  deriving DecidableEq, Repr

/-- Structural worker for `chunks252`: the fuel is an upper bound on the
list length, so it never runs out (each step strips at least one byte). -/
def chunks252Go : Nat → List Nat → List (List Nat)
  | _, [] => []
  | 0, _ :: _ => []
  | n + 1, x :: rest =>
    (x :: rest).take MAX_PACKET_DATA_SIZE :: chunks252Go n ((x :: rest).drop MAX_PACKET_DATA_SIZE)

/-- Model of `payload.chunks(MAX_PACKET_DATA_SIZE)`: split into pieces of 252 bytes,
the last possibly shorter; an empty payload yields no chunks. -/
def chunks252 (l : List Nat) : List (List Nat) :=
  chunks252Go l.length l

lemma chunks252Go_fuel_irrel :
    ∀ (n : Nat), ∀ (m : Nat) (l : List Nat), l.length ≤ n → l.length ≤ m →
      chunks252Go n l = chunks252Go m l := by
  intro n
  induction n with
  | zero =>
    intro m l hn _
    match l, hn with
    | [], _ => cases m <;> rfl
  | succ n ih =>
    intro m l hn hm
    match l with
    | [] => cases m <;> rfl
    | x :: rest =>
      match m with
      | 0 => simp at hm
      | m + 1 =>
        simp only [chunks252Go]
        rw [ih m ((x :: rest).drop MAX_PACKET_DATA_SIZE)
          (by
            have h252 : MAX_PACKET_DATA_SIZE = 252 := rfl
            simp only [List.length_drop, List.length_cons]
            simp only [List.length_cons] at hn
            omega)
          (by
            have h252 : MAX_PACKET_DATA_SIZE = 252 := rfl
            simp only [List.length_drop, List.length_cons]
            simp only [List.length_cons] at hm
            omega)]

/-- The unfolding `chunks252` shares with `slice::chunks`. -/
lemma chunks252_cons (x : Nat) (rest : List Nat) :
    chunks252 (x :: rest) =
      (x :: rest).take MAX_PACKET_DATA_SIZE ::
        chunks252 ((x :: rest).drop MAX_PACKET_DATA_SIZE) := by
  unfold chunks252
  simp only [List.length_cons, chunks252Go]
  rw [chunks252Go_fuel_irrel rest.length ((x :: rest).drop MAX_PACKET_DATA_SIZE).length
    ((x :: rest).drop MAX_PACKET_DATA_SIZE)
    (by
      have h252 : MAX_PACKET_DATA_SIZE = 252 := rfl
      simp only [List.length_drop, List.length_cons]
      omega)
    (le_refl _)]

/-- One reply delivered by `recv_packet` during the ack wait: either a decoded
packet or a connection error, as `send` observes it. -/
def Reply := Except ConnectionError Packet

/-- The tag selection inside `send`'s loop: `DataLast` when the enumeration
index equals `payload.len() / max` (checked first), `Data` at index 0,
`DataContinue` otherwise. -/
def chunkKind (chunksCount i : Nat) : Kind :=
  if i = chunksCount then Kind.DataLast
  else if i = 0 then Kind.Data
  else Kind.DataContinue

/-- The loop body of `SerialConnection::send` (`src/slip.rs` lines 363-401),
with the peer's successive `recv_packet` results supplied as a script and the
packets handed to the transport recorded in `sent`.  `chunksCount` is the
precomputed `payload.len() / MAX_PACKET_DATA_SIZE`; `i` the enumeration index.
`none` models a panic or an ack wait with no further reply (the blocking
`recv_packet` never returns). -/
def sendLoop (id chunksCount : Nat) :
    Nat → List (List Nat) → List Reply → List Packet →
    Option (List Packet × Except ConnectionError Unit)
  | _, [], _, sent => some (sent, .ok ())
  | i, payl :: rest, replies, sent =>
    let k := chunkKind chunksCount i
    let p := Packet.new k id payl
    match packetEncode p (List.replicate p.sizeB 0) with
    | none => none
    | some (.error e) => some (sent, .error (.PacketErr e))
    | some (.ok pbytes) =>
      match slipFrameEncode pbytes (List.replicate (pbytes.length % 256 + 3) 0) with
      | none => none
      | some (.error e) => some (sent, .error (.FrameErr e))
      | some (.ok _) =>
        let sent2 := sent ++ [p]
        match replies with
        | [] => none
        | r :: rtail =>
          match r with
          | .error e => some (sent2, .error e)
          | .ok rp =>
            match rp.header.kind with
            | .Ack =>
              if rp.header.convo ≠ id then
                some (sent2, .error (.UnexpectedConvoId id rp.header.convo))
              else
                sendLoop id chunksCount (i + 1) rest rtail sent2
            | _ => some (sent2, .error .NoAckResponse)

/-- Model of `SerialConnection::send(payload, id)` with a scripted peer. -/
def sendModel (payload : List Nat) (id : Nat) (replies : List Reply) :
    Option (List Packet × Except ConnectionError Unit) :=
  sendLoop id (payload.length / MAX_PACKET_DATA_SIZE) 0 (chunks252 payload) replies []

/-! ## Buffered streams (`src/serial.rs`)

The raw non-blocking source/sink is scripted: each list entry is the outcome
of one raw `read()`/`write()` call; an exhausted script behaves like a source
that would-blocks forever. -/

/-- Outcome of one raw `Rx::read()` call. -/
inductive RawOutcome
  | ready (b : Nat)
  | wouldBlock
  | hwFault
  deriving DecidableEq, Repr

/-- An `nb::Result<α, E>` with the error type opaque: `other` is
`Err(nb::Error::Other(_))`. -/
inductive NbRes (α : Type)
  | ok (a : α)
  | wouldBlock
  | other
  deriving DecidableEq, Repr

/-- Repeated raw reads up to the first non-`ready` outcome: the bytes
obtained, whether the stop was a hard error, and the remaining script. -/
def pullAvail : List RawOutcome → List Nat × Bool × List RawOutcome
  | [] => ([], false, [])
  | .ready b :: rest =>
    let (bs, e, r) := pullAvail rest
    (b :: bs, e, r)
  | .wouldBlock :: rest => ([], false, rest)
  | .hwFault :: rest => ([], true, rest)

/-- Model of `BufferedRx` (`src/serial.rs`): the scripted raw source plus the ordered
byte queue (`VecDeque<u8>`, modelled as a list, front first). -/
structure BufferedRx where
  script : List RawOutcome
  buf : List Nat
  deriving DecidableEq, Repr

/-- Model of `BufferedRx::buffer` (`src/serial.rs` lines 21-26):
`loop { let c = self.rx.read()?; self.buf.push_back(c); }` — every available
byte is appended, then the terminating raw result (`WouldBlock` or a hard
error) is propagated by `?`; the loop never returns `Ok`. -/
def rxBuffer (st : BufferedRx) : BufferedRx × NbRes Unit :=
  let (bs, isErr, rest) := pullAvail st.script
  (⟨rest, st.buf ++ bs⟩, if isErr then .other else .wouldBlock)

/-- Model of `BufferedRx::peek`. -/
def rxPeek (st : BufferedRx) : Option Nat := st.buf.head?

/-- Model of `BufferedRx::drain(amount)`: remove the first `amount` bytes. -/
def rxDrain (st : BufferedRx) (amount : Nat) : BufferedRx :=
  { st with buf := st.buf.drop amount }

/-- Model of `<BufferedRx as Read>::read` (`src/serial.rs` lines 66-81): pull
everything available from the raw source into the queue (bytes read before a
hard error are kept; the error returns immediately), then pop the front. -/
def rxRead (st : BufferedRx) : BufferedRx × NbRes Nat :=
  let (bs, isErr, rest) := pullAvail st.script
  let buf := st.buf ++ bs
  if isErr then (⟨rest, buf⟩, .other)
  else
    match buf with
    | [] => (⟨rest, []⟩, .wouldBlock)
    | x :: t => (⟨rest, t⟩, .ok x)

/-- Modelled from the spec: `read_amt` (the `ReadAmt` trait used by
`recv_frame`) is not present under `src/`; per the spec's `recv_frame`
description it drains the given number of bytes from the front of the
buffered queue. -/
def read_amt (st : BufferedRx) (amount : Nat) : BufferedRx :=
  { st with buf := st.buf.drop amount }

/-- Result of a frame receive: `nb::Result<Frame, FrameError>`. -/
inductive RecvRes
  | ok (f : Frame)
  | wouldBlock
  | other (e : FrameError)
  deriving DecidableEq, Repr

/-- Model of `recv_frame` (`src/packet.rs` lines 185-211): drain up to the first
`DELIMITER` (or everything when absent), then attempt a decode on the slice;
on success drain the frame's length; `DecodeBufferTooSmall` becomes
would-block; every other decode error is surfaced with nothing consumed. -/
def recv_frame (st : BufferedRx) : BufferedRx × RecvRes :=
  let sl := st.buf
  let st1 :=
    match sl.findIdx? (fun x => x == DELIMITER) with
    | some i => read_amt st i
    | none => read_amt st sl.length
  match frameDecode st1.buf with
  | .ok f => (read_amt st1 f.lenBytes, .ok f)
  | .error (.DecodeBufferTooSmall a b) =>
    let _ := (a, b)
    (st1, .wouldBlock)
  | .error e => (st1, .other e)

/-- Result of `FrameRx::recv`: `nb::Result<Frame, FrameIOError<_, Rx::Error>>`
with the raw read error opaque. -/
inductive FrameRxRes
  | ok (f : Frame)
  | wouldBlock
  | readErr
  | frameErr (e : FrameError)
  deriving DecidableEq, Repr

/-- Model of `let _ = self.rx.rx.read();` — one call to the raw (unbuffered) source,
result discarded: it consumes one script entry and leaves the queue alone. -/
def rawReadDiscard (st : BufferedRx) : BufferedRx :=
  { st with script := st.script.drop 1 }

/-- Decode phase of `FrameRx::recv` (`src/packet.rs` lines 326-362): decode
the buffered slice; on success drain the frame; on `EarlyEndDelim`,
`CrcMismatch` or `MissingEndDelim` perform `self.rx.rx.read()` (a raw read,
not a buffered one) and surface the error; `DecodeBufferTooSmall` becomes
would-block. -/
def frameRxDecode (st : BufferedRx) : BufferedRx × FrameRxRes :=
  match frameDecode st.buf with
  | .ok f => (rxDrain st f.lenBytes, .ok f)
  | .error (.EarlyEndDelim a b) => (rawReadDiscard st, .frameErr (.EarlyEndDelim a b))
  | .error (.CrcMismatch c f b) => (rawReadDiscard st, .frameErr (.CrcMismatch c f b))
  | .error (.MissingEndDelim i f) => (rawReadDiscard st, .frameErr (.MissingEndDelim i f))
  | .error (.DecodeBufferTooSmall a b) =>
    let _ := (a, b)
    (st, .wouldBlock)
  | .error e => (st, .frameErr e)

/-- The scan loop of `FrameRx::recv` (`src/packet.rs` lines 314-325): until
the front of the queue is `DELIMITER`, discard one byte via `read()`,
returning its would-block or hard error if it has one.  Each continuing
iteration strictly shrinks `script.length + buf.length`, so the fuel supplied
by `frameRxRecv` is never exhausted. -/
def frameRxRecvAux : Nat → BufferedRx → BufferedRx × FrameRxRes
  | 0, st => (st, .wouldBlock)
  | fuel + 1, st =>
    if rxPeek st = some DELIMITER then
      frameRxDecode st
    else
      let (st1, r) := rxRead st
      match r with
      | .ok _ => frameRxRecvAux fuel st1
      | .wouldBlock => (st1, .wouldBlock)
      | .other => (st1, .readErr)

/-- Model of `FrameRx::recv` (`src/packet.rs` lines 312-363). -/
def frameRxRecv (st : BufferedRx) : BufferedRx × FrameRxRes :=
  frameRxRecvAux (st.script.length + st.buf.length + 1) st

/-- Outcome of one raw `Tx::write(byte)` call. -/
inductive WriteOutcome
  | accept
  | wouldBlock
  | hwFault
  deriving DecidableEq, Repr

/-- Model of `BufferedTx` (`src/serial.rs`): the scripted raw sink, the bytes the sink
has accepted so far (the wire transcript), and the write queue. -/
structure BufferedTx where
  script : List WriteOutcome
  sent : List Nat
  buf : List Nat
  deriving DecidableEq, Repr

/-- Model of `<BufferedTx as Write>::flush` (`src/serial.rs` lines 144-151):
`loop { let x = self.buf.pop_front().ok_or(WouldBlock)?; self.tx.write(x)?; }`
— the byte is popped before the raw write is attempted, so when that write
would-blocks or hard-errors the popped byte is gone from the queue without
having been accepted by the sink. -/
def txFlushAux : List Nat → List WriteOutcome → List Nat → BufferedTx × NbRes Unit
  | [], script, sent => (⟨script, sent, []⟩, .wouldBlock)
  | x :: rest, script, sent =>
    match script with
    | [] => (⟨[], sent, rest⟩, .wouldBlock)
    | .accept :: stail => txFlushAux rest stail (sent ++ [x])
    | .wouldBlock :: stail => (⟨stail, sent, rest⟩, .wouldBlock)
    | .hwFault :: stail => (⟨stail, sent, rest⟩, .other)

/-- Model of `<BufferedTx as Write>::flush` on a state. -/
def txFlush (st : BufferedTx) : BufferedTx × NbRes Unit :=
  txFlushAux st.buf st.script st.sent

/-- Model of `BufferedTx::write_all` (`src/serial.rs` lines 98-105): push every byte
onto the queue (each `write` is an infallible push), then `flush`. -/
def txWriteAll (st : BufferedTx) (data : List Nat) : BufferedTx × NbRes Unit :=
  txFlush { st with buf := st.buf ++ data }

/-! ## Helper lemmas -/

lemma set_append_left_length (l1 l2 : List Nat) (k v : Nat) :
    (l1 ++ l2).set (l1.length + k) v = l1 ++ l2.set k v := by
  induction l1 with
  | nil => simp
  | cons a t ih => simp [List.set, Nat.succ_add, ih]

lemma getD_append_left_length (l1 l2 : List Nat) (k d : Nat) :
    (l1 ++ l2).getD (l1.length + k) d = l2.getD k d := by
  induction l1 with
  | nil => simp
  | cons a t ih => simpa [List.getD, Nat.succ_add] using ih

lemma writeSlice_cons2 (a b : Nat) (t d : List Nat) :
    writeSlice (a :: b :: t) 2 d = a :: b :: (d ++ t.drop d.length) := by
  simp [writeSlice, List.take, List.drop]
  rw [show 2 + d.length = d.length + 1 + 1 by omega]
  simp [List.drop_succ_cons]

/-- The successful branch of `frameEncode`: with capacity `size + 4` the
destination's visible prefix is exactly the wire frame. -/
lemma frameEncode_ok_shape (self buffer : List Nat)
    (h : min MAX_DATA_SIZE self.length + 4 ≤ buffer.length) :
    frameEncode self buffer =
      .ok (DELIMITER :: min MAX_DATA_SIZE self.length ::
            (self.take (min MAX_DATA_SIZE self.length) ++
              crc8 (min MAX_DATA_SIZE self.length :: self.take (min MAX_DATA_SIZE self.length)) ::
                END_DELIM :: buffer.drop (min MAX_DATA_SIZE self.length + 4)))
        (min MAX_DATA_SIZE self.length + 4) := by
  obtain ⟨s, hs⟩ : ∃ s, min MAX_DATA_SIZE self.length = s := ⟨_, rfl⟩
  rw [hs] at h ⊢
  have hsle : s ≤ self.length := by omega
  have hds : (self.take s).length = s := by
    rw [List.length_take]
    omega
  match buffer, h with
  | a :: b :: t, h =>
    have ht : s + 2 ≤ t.length := by
      simp at h
      omega
    have hlen : ¬ (a :: b :: t).length < 2 := by simp
    unfold frameEncode
    rw [if_neg hlen]
    dsimp only
    rw [hs]
    have hset : ((a :: b :: t).set 0 DELIMITER).set 1 s = DELIMITER :: s :: t := by
      simp [List.set]
    rw [hset]
    have hcap : ¬ (DELIMITER :: s :: t).length < s + 4 := by
      simp
      omega
    rw [if_neg hcap]
    rw [writeSlice_cons2, hds]
    have h1 : (DELIMITER :: s :: (self.take s ++ t.drop s)).set (s + 2) (crc8 (s :: self.take s)) =
        DELIMITER :: s :: (self.take s ++ crc8 (s :: self.take s) :: t.drop (s + 1)) := by
      rw [show DELIMITER :: s :: (self.take s ++ t.drop s) =
        (DELIMITER :: s :: self.take s) ++ t.drop s by simp]
      rw [show s + 2 = (DELIMITER :: s :: self.take s).length + 0 by simp [hds]]
      rw [set_append_left_length]
      have htd : 0 < (t.drop s).length := by
        simp
        omega
      rw [List.set_eq_take_cons_drop _ htd]
      simp [List.drop_drop]
    rw [h1]
    have h2 : (DELIMITER :: s :: (self.take s ++ crc8 (s :: self.take s) :: t.drop (s + 1))).set
          (s + 3) END_DELIM =
        DELIMITER :: s ::
          (self.take s ++ crc8 (s :: self.take s) :: END_DELIM :: t.drop (s + 2)) := by
      rw [show DELIMITER :: s :: (self.take s ++ crc8 (s :: self.take s) :: t.drop (s + 1)) =
        (DELIMITER :: s :: self.take s ++ [crc8 (s :: self.take s)]) ++ t.drop (s + 1) by simp]
      rw [show s + 3 = (DELIMITER :: s :: self.take s ++ [crc8 (s :: self.take s)]).length + 0 by
        simp [hds]]
      rw [set_append_left_length]
      have htd2 : 0 < (t.drop (s + 1)).length := by
        simp
        omega
      rw [List.set_eq_take_cons_drop _ htd2]
      simp [List.drop_drop]
    rw [h2]
    have h3 : (a :: b :: t).drop (s + 4) = t.drop (s + 2) := by
      rw [show s + 4 = (s + 2) + 1 + 1 by omega]
      simp [List.drop_succ_cons]
    rw [h3]

/-- The failing branch of `frameEncode`: a destination of at least 2 but
fewer than `size + 4` bytes yields `EncodeBufferTooSmall`, with the first two
destination bytes already overwritten. -/
lemma frameEncode_fails_shape (self buffer : List Nat) (h2 : 2 ≤ buffer.length)
    (hcap : buffer.length < min MAX_DATA_SIZE self.length + 4) :
    frameEncode self buffer =
      .fails (.EncodeBufferTooSmall (min MAX_DATA_SIZE self.length + 4) buffer.length)
        ((buffer.set 0 DELIMITER).set 1 (min MAX_DATA_SIZE self.length)) := by
  have hlen : ¬ buffer.length < 2 := by omega
  unfold frameEncode
  rw [if_neg hlen]
  dsimp only
  rw [if_pos (by simpa using hcap)]
  simp

/-- Inversion for `frameEncode`: every `fails` outcome is an
`EncodeBufferTooSmall` on a destination of at least 2 but fewer than
`size + 4` bytes whose first two bytes have been overwritten with the start
delimiter and the length byte. -/
lemma frameEncode_fails_inv (self buffer : List Nat) (e : FrameError) (out : List Nat)
    (h : frameEncode self buffer = .fails e out) :
    2 ≤ buffer.length ∧ buffer.length < min MAX_DATA_SIZE self.length + 4 ∧
      e = .EncodeBufferTooSmall (min MAX_DATA_SIZE self.length + 4) buffer.length ∧
      out = (buffer.set 0 DELIMITER).set 1 (min MAX_DATA_SIZE self.length) := by
  by_cases hlen : buffer.length < 2
  · rw [frameEncode, if_pos hlen] at h
    exact absurd h (by simp)
  · by_cases hcap : buffer.length < min MAX_DATA_SIZE self.length + 4
    · rw [frameEncode_fails_shape self buffer (by omega) hcap] at h
      injection h with he hout
      exact ⟨by omega, hcap, he.symm, hout.symm⟩
    · rw [frameEncode_ok_shape self buffer (by omega)] at h
      exact absurd h (by simp)

/-- Decoding a well-formed encoded frame (arbitrary trailing bytes) succeeds
and returns the payload and checksum unchanged. -/
lemma frameDecode_encoded (payload rest : List Nat) (hp : payload.length ≤ 255) :
    frameDecode (DELIMITER :: payload.length ::
        (payload ++ crc8 (payload.length :: payload) :: END_DELIM :: rest)) =
      .ok ⟨payload.length, payload, crc8 (payload.length :: payload)⟩ := by
  obtain ⟨n, hn⟩ : ∃ n, payload.length = n := ⟨_, rfl⟩
  obtain ⟨c, hc⟩ : ∃ c, crc8 (payload.length :: payload) = c := ⟨_, rfl⟩
  rw [hn] at hc ⊢
  rw [hc]
  have hlen : (DELIMITER :: n :: (payload ++ c :: END_DELIM :: rest)).length = n + 4 + rest.length := by
    simp [hn]
    omega
  have hd3 : (payload ++ c :: END_DELIM :: rest).getD (n + 1) 0 = END_DELIM := by
    rw [show n + 1 = payload.length + 1 by omega]
    rw [getD_append_left_length]
    rfl
  have hd2 : (payload ++ c :: END_DELIM :: rest).getD n 0 = c := by
    rw [show n = payload.length + 0 by omega]
    rw [getD_append_left_length]
    rfl
  have hp' : ((DELIMITER :: n :: (payload ++ c :: END_DELIM :: rest)).drop 2).take n
      = payload := by
    simp only [List.drop_succ_cons, List.drop_zero]
    rw [← hn, List.take_left]
  unfold frameDecode
  rw [if_neg (by rw [hlen]; omega)]
  rw [if_neg (by simp)]
  dsimp only [List.getD_cons_succ, List.getD_cons_zero]
  rw [if_neg (by rw [hlen]; omega)]
  rw [hp']
  rw [hd3]
  rw [if_neg (by simp)]
  dsimp only
  rw [hd2, hc]
  rw [if_neg (by simp)]
  rw [if_neg (by simp)]

/-! ## CRC-8 single-byte error detection

The reflected CRC-8 register update is invertible on bytes, so two byte
streams that differ in exactly one byte always fold to different checksums. -/

/-- Inverse of one CRC bit round on 8-bit values: the parity of the
pre-image is recorded in bit 7 of the image (0x8C has bit 7 set). -/
def crcRoundInv (c : Nat) : Nat :=
  if c.testBit 7 then 2 * (c ^^^ 0x8C) + 1 else 2 * c

/-- Inverse of a full byte round. -/
def crcRound8Inv (c : Nat) : Nat :=
  crcRoundInv (crcRoundInv (crcRoundInv (crcRoundInv
    (crcRoundInv (crcRoundInv (crcRoundInv (crcRoundInv c)))))))

set_option maxRecDepth 4000 in
lemma crcRound8_inv256 :
    ∀ c : Fin 256, crcRound8Inv (crcRound8 c.val) = c.val ∧ crcRound8 c.val < 256 := by
  decide

lemma crcRound8_inj {c1 c2 : Nat} (h1 : c1 < 256) (h2 : c2 < 256)
    (he : crcRound8 c1 = crcRound8 c2) : c1 = c2 := by
  have e1 := (crcRound8_inv256 ⟨c1, h1⟩).1
  have e2 := (crcRound8_inv256 ⟨c2, h2⟩).1
  simp only at e1 e2
  rw [← e1, ← e2, he]

lemma xor_lt_256 {a b : Nat} (ha : a < 256) (hb : b < 256) : a ^^^ b < 256 := by
  have ha' : a < 2 ^ 8 := by simpa using ha
  have hb' : b < 2 ^ 8 := by simpa using hb
  simpa using Nat.xor_lt_two_pow ha' hb'

lemma crcStep_lt {c b : Nat} (hc : c < 256) (hb : b < 256) : crcStep c b < 256 :=
  (crcRound8_inv256 ⟨c ^^^ b, xor_lt_256 hc hb⟩).2

lemma crcStep_inj_state {b c1 c2 : Nat} (hb : b < 256) (h1 : c1 < 256) (h2 : c2 < 256)
    (hne : c1 ≠ c2) : crcStep c1 b ≠ crcStep c2 b := by
  intro he
  apply hne
  have := crcRound8_inj (xor_lt_256 h1 hb) (xor_lt_256 h2 hb) he
  have h := congrArg (fun x => x ^^^ b) this
  simpa [Nat.xor_cancel_right] using h

lemma crcStep_inj_byte {s x y : Nat} (hs : s < 256) (hx : x < 256) (hy : y < 256)
    (hxy : x ≠ y) : crcStep s x ≠ crcStep s y := by
  intro he
  apply hxy
  have := crcRound8_inj (xor_lt_256 hs hx) (xor_lt_256 hs hy) he
  have h := congrArg (fun z => s ^^^ z) this
  simpa [Nat.xor_cancel_left] using h

lemma crcFold_lt (l : List Nat) (hl : ∀ b ∈ l, b < 256) :
    ∀ c, c < 256 → l.foldl crcStep c < 256 := by
  induction l with
  | nil => intro c hc; simpa using hc
  | cons b t ih =>
    intro c hc
    simp only [List.foldl_cons]
    exact ih (fun x hx => hl x (by simp [hx])) _ (crcStep_lt hc (hl b (by simp)))

lemma crcFold_ne (l : List Nat) (hl : ∀ b ∈ l, b < 256) :
    ∀ {c1 c2 : Nat}, c1 < 256 → c2 < 256 → c1 ≠ c2 →
      l.foldl crcStep c1 ≠ l.foldl crcStep c2 := by
  induction l with
  | nil => intro c1 c2 _ _ hne; simpa using hne
  | cons b t ih =>
    intro c1 c2 h1 h2 hne
    have hb : b < 256 := hl b (by simp)
    simp only [List.foldl_cons]
    exact ih (fun x hx => hl x (by simp [hx]))
      (crcStep_lt h1 hb) (crcStep_lt h2 hb) (crcStep_inj_state hb h1 h2 hne)

/-- Two streams that agree outside one position where they hold different
bytes have different CRCs. -/
lemma crc8_ne_single_change (pre suf : List Nat) (x y : Nat)
    (hpre : ∀ b ∈ pre, b < 256) (hsuf : ∀ b ∈ suf, b < 256)
    (hx : x < 256) (hy : y < 256) (hxy : x ≠ y) :
    crc8 (pre ++ x :: suf) ≠ crc8 (pre ++ y :: suf) := by
  unfold crc8
  rw [List.foldl_append, List.foldl_append]
  simp only [List.foldl_cons]
  have hs : pre.foldl crcStep 0 < 256 := crcFold_lt pre hpre 0 (by omega)
  exact crcFold_ne suf hsuf (crcStep_lt hs hx) (crcStep_lt hs hy)
    (crcStep_inj_byte hs hx hy hxy)

/-- Decoding a frame whose delimiters and length byte are intact but whose
stored checksum disagrees with the recomputed one yields `CrcMismatch`. -/
lemma frameDecode_crcMismatch (q rest : List Nat) (c' : Nat) (hq : q.length ≤ 255)
    (hne : c' ≠ crc8 (q.length :: q)) :
    frameDecode (DELIMITER :: q.length :: (q ++ c' :: END_DELIM :: rest)) =
      .error (.CrcMismatch (crc8 (q.length :: q)) c'
        (DELIMITER :: q.length :: (q ++ c' :: END_DELIM :: rest))) := by
  obtain ⟨n, hn⟩ : ∃ n, q.length = n := ⟨_, rfl⟩
  rw [hn] at hne ⊢
  have hlen : (DELIMITER :: n :: (q ++ c' :: END_DELIM :: rest)).length
      = n + 4 + rest.length := by
    simp [hn]
    omega
  have hd3 : (q ++ c' :: END_DELIM :: rest).getD (n + 1) 0 = END_DELIM := by
    rw [show n + 1 = q.length + 1 by omega]
    rw [getD_append_left_length]
    rfl
  have hd2 : (q ++ c' :: END_DELIM :: rest).getD n 0 = c' := by
    rw [show n = q.length + 0 by omega]
    rw [getD_append_left_length]
    rfl
  have hp' : ((DELIMITER :: n :: (q ++ c' :: END_DELIM :: rest)).drop 2).take n = q := by
    simp only [List.drop_succ_cons, List.drop_zero]
    rw [← hn, List.take_left]
  unfold frameDecode
  rw [if_neg (by rw [hlen]; omega)]
  rw [if_neg (by simp)]
  dsimp only [List.getD_cons_succ, List.getD_cons_zero]
  rw [if_neg (by rw [hlen]; omega)]
  rw [hp']
  rw [hd3]
  rw [if_neg (by simp)]
  dsimp only
  rw [hd2]
  rw [if_pos hne]

lemma kindFromBits_kindVal (k : Kind) : kindFromBits (kindVal k) = k := by
  cases k <;> rfl

lemma packetEncode_new_ok (k : Kind) (convo : Nat) (data : List Nat)
    (hd : data.length ≤ 255) :
    packetEncode (Packet.new k convo data) (List.replicate (3 + data.length) 0) =
      some (.ok (kindVal k :: convo :: data.length :: data)) := by
  have hmod : data.length % 256 = data.length := Nat.mod_eq_of_lt (by omega)
  unfold packetEncode Packet.new Packet.sizeB PacketHeader.bytes
  dsimp only
  rw [hmod]
  rw [if_neg (by simp)]
  rw [if_neg (by simp)]
  unfold writeSlice
  simp only [List.take_zero, List.drop_zero, List.nil_append, List.length_cons,
    List.length_nil]
  rw [show (0 : Nat) + (0 + 1 + 1 + 1) = 3 by omega]
  rw [show (List.replicate (3 + data.length) 0).drop 3 = List.replicate data.length 0 by
    rw [List.drop_replicate]
    congr 1
    omega]
  rw [List.take_left' (by simp)]
  rw [show (3 : Nat) + data.length =
    ([kindVal k, convo, data.length] : List Nat).length + data.length by simp]
  rw [List.drop_append]
  rw [List.drop_replicate]
  simp

lemma packetDecode_encoded (k : Kind) (convo : Nat) (data : List Nat) :
    packetDecode (kindVal k :: convo :: data.length :: data) =
      .ok ⟨⟨k, convo, data.length⟩, data⟩ := by
  unfold packetDecode
  rw [if_neg (by simp)]
  dsimp only [List.getD_cons_succ, List.getD_cons_zero]
  rw [if_neg (by simp; omega)]
  rw [kindFromBits_kindVal]
  simp [List.drop_succ_cons]

/-- C5: decode is a left inverse of encode for both codecs: a frame encoding
of any payload of length at most 255 decodes back to exactly that payload
(and its checksum), and a packet built by `Packet::new` encodes and decodes
back to the same kind, conversation id, length and data. -/
theorem roundtrip_decode_encode (payload : List Nat) (hp : payload.length ≤ 255)
    (k : Kind) (convo : Nat) (data : List Nat) (hd : data.length ≤ 255) :
    frameEncode payload (List.replicate (payload.length + 4) 0) =
      .ok (DELIMITER :: payload.length ::
        (payload ++ crc8 (payload.length :: payload) :: END_DELIM :: []))
        (payload.length + 4)
  ∧ frameDecode (DELIMITER :: payload.length ::
        (payload ++ crc8 (payload.length :: payload) :: END_DELIM :: [])) =
      .ok ⟨payload.length, payload, crc8 (payload.length :: payload)⟩
  ∧ packetEncode (Packet.new k convo data) (List.replicate (3 + data.length) 0) =
      some (.ok (kindVal k :: convo :: data.length :: data))
  ∧ packetDecode (kindVal k :: convo :: data.length :: data) =
      .ok ⟨⟨k, convo, data.length⟩, data⟩ := by
  refine ⟨?_, ?_, packetEncode_new_ok k convo data hd, packetDecode_encoded k convo data⟩
  · have hmin : min MAX_DATA_SIZE payload.length = payload.length := by
      unfold MAX_DATA_SIZE
      omega
    have h := frameEncode_ok_shape payload (List.replicate (payload.length + 4) 0)
      (by simp [hmin])
    rw [hmin] at h
    simpa [List.take_length, List.drop_replicate] using h
  · exact frameDecode_encoded payload [] hp

/-- C5 witness. -/
theorem roundtrip_decode_encode_witness :
    frameDecode (DELIMITER :: 2 ::
        ([1, 2] ++ crc8 (2 :: [1, 2]) :: END_DELIM :: [])) =
      .ok ⟨2, [1, 2], crc8 (2 :: [1, 2])⟩ ∧
    packetDecode (kindVal .Data :: 9 :: 1 :: [3]) = .ok ⟨⟨.Data, 9, 1⟩, [3]⟩ :=
  ⟨(roundtrip_decode_encode [1, 2] (by decide) .Data 9 [3] (by decide)).2.1,
   (roundtrip_decode_encode [1, 2] (by decide) .Data 9 [3] (by decide)).2.2.2⟩

/-- C6: with delimiters and length byte intact, changing one payload byte or
the checksum byte to any different 8-bit value makes decode return
`CrcMismatch`; the corrupted frame never decodes successfully. -/
theorem frame_corruption_detected (payload : List Nat) (i b' : Nat)
    (hp : payload.length ≤ 255) (hbytes : ∀ b ∈ payload, b < 256) (hb' : b' < 256) :
    (∀ (hi : i < payload.length), payload.get ⟨i, hi⟩ ≠ b' →
      frameDecode (DELIMITER :: payload.length ::
          (payload.set i b' ++ crc8 (payload.length :: payload) :: END_DELIM :: [])) =
        .error (.CrcMismatch (crc8 (payload.length :: payload.set i b'))
          (crc8 (payload.length :: payload))
          (DELIMITER :: payload.length ::
            (payload.set i b' ++ crc8 (payload.length :: payload) :: END_DELIM :: []))))
  ∧ (b' ≠ crc8 (payload.length :: payload) →
      frameDecode (DELIMITER :: payload.length :: (payload ++ b' :: END_DELIM :: [])) =
        .error (.CrcMismatch (crc8 (payload.length :: payload)) b'
          (DELIMITER :: payload.length :: (payload ++ b' :: END_DELIM :: [])))) := by
  constructor
  · intro hi hne
    have hlen : (payload.set i b').length = payload.length := by simp
    have hcrcne : crc8 (payload.length :: payload) ≠ crc8 (payload.length :: payload.set i b') := by
      have hdec : payload.take i ++ payload.get ⟨i, hi⟩ :: payload.drop (i + 1) = payload := by
        rw [List.get_eq_getElem, List.getElem_cons_drop, List.take_append_drop]
      have hset : payload.set i b' = payload.take i ++ b' :: payload.drop (i + 1) :=
        List.set_eq_take_cons_drop _ hi
      have h1 : payload.length :: payload =
          (payload.length :: payload.take i) ++ payload.get ⟨i, hi⟩ :: payload.drop (i + 1) := by
        rw [List.cons_append, hdec]
      have h2 : payload.length :: payload.set i b' =
          (payload.length :: payload.take i) ++ b' :: payload.drop (i + 1) := by
        rw [List.cons_append, hset]
      rw [h1, h2]
      exact crc8_ne_single_change (payload.length :: payload.take i) (payload.drop (i + 1))
        (payload.get ⟨i, hi⟩) b'
        (by
          intro b hb
          rcases List.mem_cons.mp hb with hb | hb
          · omega
          · exact hbytes b (List.take_subset _ _ hb))
        (fun b hb => hbytes b (List.drop_subset _ _ hb))
        (hbytes _ (by rw [List.get_eq_getElem]; exact payload.getElem_mem hi))
        hb'
        hne
    have h := frameDecode_crcMismatch (payload.set i b') []
      (crc8 (payload.length :: payload)) (by rw [hlen]; omega) (by rw [hlen]; exact hcrcne)
    rw [hlen] at h
    exact h
  · intro hne
    exact frameDecode_crcMismatch payload [] b' hp hne

/-- C6 witness. -/
theorem frame_corruption_detected_witness :
    frameDecode (DELIMITER :: 1 ::
        ([7].set 0 9 ++ crc8 (1 :: [7]) :: END_DELIM :: [])) =
      .error (.CrcMismatch (crc8 (1 :: [7].set 0 9)) (crc8 (1 :: [7]))
        (DELIMITER :: 1 :: ([7].set 0 9 ++ crc8 (1 :: [7]) :: END_DELIM :: []))) ∧
    frameDecode (DELIMITER :: 1 :: ([7] ++ 0 :: END_DELIM :: [])) =
      .error (.CrcMismatch (crc8 (1 :: [7])) 0
        (DELIMITER :: 1 :: ([7] ++ 0 :: END_DELIM :: []))) :=
  ⟨(frame_corruption_detected [7] 0 9 (by decide) (by decide) (by decide)).1
      (by decide) (by decide),
   (frame_corruption_detected [7] 0 0 (by decide) (by decide) (by decide)).2 (by decide)⟩

/-- Evaluates to `true` exactly on outcomes that return `EncodeBufferTooSmall`. -/
def EncodeOutcome.returnsTooSmall : EncodeOutcome → Bool
  | .fails (.EncodeBufferTooSmall _ _) _ => true
  | _ => false

/-- C8 counterexample: on a destination of fewer than 2 bytes `encode` does
not return `EncodeBufferTooSmall` — it panics on the unchecked
`buffer[0]`/`buffer[1]` writes, so the error contract does not hold for
every destination buffer. -/
theorem frameEncode_empty_dest_panics :
    (frameEncode [] []).returnsTooSmall = false ∧ frameEncode [] [] = .panics ∧
    (frameEncode [0] [0]).returnsTooSmall = false ∧ frameEncode [0] [0] = .panics := by
  decide

/-- C8 (amended): for destinations of at least 2 bytes, encode uses
`length = min(payload.len(), 255)` (truncating to the first 255 bytes),
fails with `EncodeBufferTooSmall{expected: length + 4, found: buffer.len()}`
exactly when the destination is smaller than `length + 4`, and otherwise
succeeds returning `length + 4` bytes written. -/
theorem frameEncode_capacity_contract (self buffer : List Nat) (h2 : 2 ≤ buffer.length) :
    (buffer.length < min MAX_DATA_SIZE self.length + 4 →
      frameEncode self buffer =
        .fails (.EncodeBufferTooSmall (min MAX_DATA_SIZE self.length + 4) buffer.length)
          ((buffer.set 0 DELIMITER).set 1 (min MAX_DATA_SIZE self.length)))
  ∧ (min MAX_DATA_SIZE self.length + 4 ≤ buffer.length →
      frameEncode self buffer =
        .ok (DELIMITER :: min MAX_DATA_SIZE self.length ::
              (self.take (min MAX_DATA_SIZE self.length) ++
                crc8 (min MAX_DATA_SIZE self.length ::
                  self.take (min MAX_DATA_SIZE self.length)) ::
                    END_DELIM :: buffer.drop (min MAX_DATA_SIZE self.length + 4)))
          (min MAX_DATA_SIZE self.length + 4)) :=
  ⟨fun h => frameEncode_fails_shape self buffer h2 h,
   fun h => frameEncode_ok_shape self buffer h⟩

/-- C8 witness. -/
theorem frameEncode_capacity_contract_witness :
    frameEncode [1, 2, 3] [0, 0, 0, 0] =
      .fails (.EncodeBufferTooSmall 7 4) (([0, 0, 0, 0].set 0 DELIMITER).set 1 3) :=
  (frameEncode_capacity_contract [1, 2, 3] [0, 0, 0, 0] (by decide)).1 (by decide)

/-- C9: encode is not atomic on failure — whenever it returns
`EncodeBufferTooSmall`, the destination had at least 2 (but fewer than
`length + 4`) bytes and its first two bytes have already been overwritten
with the start delimiter and the length byte, the rest left unchanged. -/
theorem frameEncode_writes_before_check (self buffer : List Nat) (e : FrameError)
    (out : List Nat) (h : frameEncode self buffer = .fails e out) :
    e = .EncodeBufferTooSmall (min MAX_DATA_SIZE self.length + 4) buffer.length ∧
    2 ≤ buffer.length ∧ buffer.length < min MAX_DATA_SIZE self.length + 4 ∧
    out.take 2 = [DELIMITER, min MAX_DATA_SIZE self.length] ∧
    out.drop 2 = buffer.drop 2 := by
  obtain ⟨hge, hlt, he, hout⟩ := frameEncode_fails_inv self buffer e out h
  refine ⟨he, hge, hlt, ?_, ?_⟩
  · match buffer, hge with
    | a :: b :: t, _ =>
      rw [hout]
      simp [List.set]
  · match buffer, hge with
    | a :: b :: t, _ =>
      rw [hout]
      simp [List.set]

/-- C9 witness. -/
theorem frameEncode_writes_before_check_witness :
    FrameError.EncodeBufferTooSmall 9 4 =
        .EncodeBufferTooSmall (min MAX_DATA_SIZE [1, 2, 3, 4, 5].length + 4) 4 ∧
    2 ≤ ([9, 9, 9, 9] : List Nat).length ∧
    ([9, 9, 9, 9] : List Nat).length < min MAX_DATA_SIZE [1, 2, 3, 4, 5].length + 4 ∧
    ([DELIMITER, 5, 9, 9] : List Nat).take 2 =
      [DELIMITER, min MAX_DATA_SIZE [1, 2, 3, 4, 5].length] ∧
    ([DELIMITER, 5, 9, 9] : List Nat).drop 2 = ([9, 9, 9, 9] : List Nat).drop 2 :=
  frameEncode_writes_before_check [1, 2, 3, 4, 5] [9, 9, 9, 9]
    (.EncodeBufferTooSmall 9 4) [DELIMITER, 5, 9, 9] (by decide)

/-! ## The send state machine: chunking, tagging, ack protocol -/

/-- Size of a fresh packet: `(Packet.new k convo data).size() = 3 + data.len()`. -/
lemma Packet.sizeB_new (k : Kind) (convo : Nat) (data : List Nat) :
    (Packet.new k convo data).sizeB = 3 + data.length := rfl

/-- The slip frame encode performed inside `send` succeeds whenever the
packet bytes fit in a frame and the destination has frame capacity. -/
lemma slipFrameEncode_ok (fdata buffer : List Nat) (hf : fdata.length ≤ 255)
    (hb : fdata.length + 3 ≤ buffer.length) :
    ∃ out, slipFrameEncode fdata buffer = some (.ok out) := by
  have hmod : fdata.length % 256 = fdata.length := Nat.mod_eq_of_lt (by omega)
  unfold slipFrameEncode
  dsimp only
  rw [hmod]
  rw [if_neg (by omega)]
  rw [if_neg (by omega)]
  exact ⟨_, rfl⟩

/-- Evaluates to `true` exactly on replies that are an `Ack` packet with the
expected conversation id — the only replies `send` accepts. -/
def isGoodAck (id : Nat) : Reply → Bool
  | .ok rp => rp.header.kind == Kind.Ack && rp.header.convo == id
  | .error _ => false

/-- The packets `send` hands to the transport, chunk by chunk, starting at
enumeration index `i`. -/
def expectedPackets (id cc : Nat) : Nat → List (List Nat) → List Packet
  | _, [] => []
  | i, c :: rest => Packet.new (chunkKind cc i) id c :: expectedPackets id cc (i + 1) rest

/-- One unfolding of `sendLoop` on a chunk small enough that both encodes
succeed. -/
lemma sendLoop_cons (id cc i : Nat) (payl : List Nat) (rest : List (List Nat))
    (replies : List Reply) (sent : List Packet) (h : payl.length ≤ 252) :
    sendLoop id cc i (payl :: rest) replies sent =
      match replies with
      | [] => none
      | r :: rtail =>
        match r with
        | .error e => some (sent ++ [Packet.new (chunkKind cc i) id payl], .error e)
        | .ok rp =>
          match rp.header.kind with
          | .Ack =>
            if rp.header.convo ≠ id then
              some (sent ++ [Packet.new (chunkKind cc i) id payl],
                .error (.UnexpectedConvoId id rp.header.convo))
            else sendLoop id cc (i + 1) rest rtail
              (sent ++ [Packet.new (chunkKind cc i) id payl])
          | _ => some (sent ++ [Packet.new (chunkKind cc i) id payl],
              .error .NoAckResponse) := by
  rw [sendLoop]
  dsimp only
  rw [Packet.sizeB_new, packetEncode_new_ok (chunkKind cc i) id payl (by omega)]
  dsimp only
  obtain ⟨out, hout⟩ := slipFrameEncode_ok (kindVal (chunkKind cc i) :: id :: payl.length :: payl)
    (List.replicate ((kindVal (chunkKind cc i) :: id :: payl.length :: payl).length % 256 + 3) 0)
    (by simp only [List.length_cons]; omega)
    (by
      have hmod : (kindVal (chunkKind cc i) :: id :: payl.length :: payl).length % 256 =
          (kindVal (chunkKind cc i) :: id :: payl.length :: payl).length := by
        apply Nat.mod_eq_of_lt
        simp only [List.length_cons]
        omega
      rw [List.length_replicate, hmod])
  rw [hout]

/-- Every chunk produced by `payload.chunks(252)` has at most 252 bytes. -/
lemma chunks252_length_le : ∀ n (l : List Nat), l.length ≤ n →
    ∀ c ∈ chunks252 l, c.length ≤ 252 := by
  intro n
  induction n with
  | zero =>
    intro l hl c hc
    cases l with
    | nil => simp [chunks252, chunks252Go] at hc
    | cons x rest => simp at hl
  | succ n ih =>
    intro l hl c hc
    cases l with
    | nil => simp [chunks252, chunks252Go] at hc
    | cons x rest =>
      rw [chunks252_cons] at hc
      have h252 : MAX_PACKET_DATA_SIZE = 252 := rfl
      rcases List.mem_cons.mp hc with hc | hc
      · subst hc
        simp only [List.length_take]
        omega
      · refine ih _ ?_ c hc
        simp only [List.length_drop, List.length_cons]
        simp only [List.length_cons] at hl
        omega

/-- When enough matching acknowledgments arrive, the loop sends every chunk
in order and succeeds. -/
lemma sendLoop_allAck (id cc : Nat) :
    ∀ (cs : List (List Nat)) (i : Nat) (replies : List Reply) (sent : List Packet),
      (∀ c ∈ cs, c.length ≤ 252) →
      cs.length ≤ replies.length →
      (∀ r ∈ replies.take cs.length, isGoodAck id r = true) →
      sendLoop id cc i cs replies sent = some (sent ++ expectedPackets id cc i cs, .ok ()) := by
  intro cs
  induction cs with
  | nil =>
    intro i replies sent _ _ _
    simp [sendLoop, expectedPackets]
  | cons c cs' ih =>
    intro i replies sent hcs hlen hgood
    match replies with
    | [] => simp at hlen
    | r :: rtail =>
      rw [sendLoop_cons id cc i c cs' (r :: rtail) sent (hcs c (by simp))]
      have hr : isGoodAck id r = true := hgood r (by simp)
      match r with
      | .error e => simp [isGoodAck] at hr
      | .ok rp =>
        have hr' : rp.header.kind = Kind.Ack ∧ rp.header.convo = id := by
          simpa [isGoodAck] using hr
        dsimp only
        rw [hr'.1]
        dsimp only
        rw [if_neg (by simp [hr'.2])]
        rw [ih (i + 1) rtail (sent ++ [Packet.new (chunkKind cc i) id c])
          (fun x hx => hcs x (by simp [hx]))
          (by simpa using hlen)
          (fun x hx => hgood x (by
            simp only [List.length_cons, List.take_succ_cons]
            exact List.mem_cons_of_mem _ hx))]
        simp [expectedPackets]

/-- The first non-matching reply aborts the loop with the matching protocol
error, after exactly the chunks up to and including the unacknowledged one
have been handed to the transport. -/
lemma sendLoop_firstBad (id cc : Nat) :
    ∀ (pre : List Reply) (cs : List (List Nat)) (i : Nat) (post : List Reply)
      (rp : Packet) (sent : List Packet),
      (∀ c ∈ cs, c.length ≤ 252) →
      pre.length < cs.length →
      (∀ r ∈ pre, isGoodAck id r = true) →
      isGoodAck id (.ok rp) = false →
      sendLoop id cc i cs (pre ++ .ok rp :: post) sent =
        some (sent ++ expectedPackets id cc i (cs.take (pre.length + 1)),
          .error (if rp.header.kind = Kind.Ack then .UnexpectedConvoId id rp.header.convo
            else .NoAckResponse)) := by
  intro pre
  induction pre with
  | nil =>
    intro cs i post rp sent hcs hlen _ hbad
    cases cs with
    | nil => simp at hlen
    | cons c cs' =>
      rw [List.nil_append,
          sendLoop_cons id cc i c cs' (.ok rp :: post) sent (hcs c (by simp))]
      dsimp only
      simp only [List.length_nil, Nat.zero_add, List.take_succ_cons, List.take_zero]
      match hk : rp.header.kind with
      | .Ack =>
        have hconv : rp.header.convo ≠ id := by
          intro hc
          rw [isGoodAck] at hbad
          simp [hk, hc] at hbad
        dsimp only
        rw [if_pos hconv, if_pos rfl]
        simp [expectedPackets]
      | .Data =>
        dsimp only
        rw [if_neg (by simp)]
        simp [expectedPackets]
      | .DataContinue =>
        dsimp only
        rw [if_neg (by simp)]
        simp [expectedPackets]
      | .DataLast =>
        dsimp only
        rw [if_neg (by simp)]
        simp [expectedPackets]
      | .Error =>
        dsimp only
        rw [if_neg (by simp)]
        simp [expectedPackets]
      | .Reserved =>
        dsimp only
        rw [if_neg (by simp)]
        simp [expectedPackets]
  | cons r pre' ih =>
    intro cs i post rp sent hcs hlen hgood hbad
    cases cs with
    | nil => simp at hlen
    | cons c cs' =>
      rw [List.cons_append, sendLoop_cons id cc i c cs' _ sent (hcs c (by simp))]
      have hr : isGoodAck id r = true := hgood r (by simp)
      match r with
      | .error e => simp [isGoodAck] at hr
      | .ok q =>
        have hr' : q.header.kind = Kind.Ack ∧ q.header.convo = id := by
          simpa [isGoodAck] using hr
        dsimp only
        rw [hr'.1]
        dsimp only
        rw [if_neg (by simp [hr'.2])]
        rw [ih cs' (i + 1) post rp (sent ++ [Packet.new (chunkKind cc i) id c])
          (fun x hx => hcs x (by simp [hx]))
          (by simpa using hlen)
          (fun x hx => hgood x (List.mem_cons_of_mem _ hx))
          hbad]
        simp [expectedPackets, List.take_succ_cons]

/-- Success of the loop forces every chunk to have been handed to the
transport in order and every consumed reply to have been a matching `Ack`. -/
lemma sendLoop_ok_inv (id cc : Nat) :
    ∀ (cs : List (List Nat)) (i : Nat) (replies : List Reply) (sent out : List Packet),
      (∀ c ∈ cs, c.length ≤ 252) →
      sendLoop id cc i cs replies sent = some (out, .ok ()) →
      out = sent ++ expectedPackets id cc i cs ∧ cs.length ≤ replies.length ∧
        ∀ r ∈ replies.take cs.length, isGoodAck id r = true := by
  intro cs
  induction cs with
  | nil =>
    intro i replies sent out _ h
    simp [sendLoop] at h
    simp [expectedPackets, h]
  | cons c cs' ih =>
    intro i replies sent out hcs h
    rw [sendLoop_cons id cc i c cs' replies sent (hcs c (by simp))] at h
    match replies with
    | [] => exact absurd h (by simp)
    | .error e :: rtail => exact absurd h (by simp)
    | .ok rp :: rtail =>
      dsimp only at h
      match hk : rp.header.kind with
      | .Ack =>
        rw [hk] at h
        dsimp only at h
        by_cases hconv : rp.header.convo ≠ id
        · rw [if_pos hconv] at h
          exact absurd h (by simp)
        · rw [if_neg hconv] at h
          obtain ⟨hout, hlen, hgood⟩ := ih (i + 1) rtail
            (sent ++ [Packet.new (chunkKind cc i) id c]) out
            (fun x hx => hcs x (by simp [hx])) h
          refine ⟨by simp [hout, expectedPackets], by simpa using hlen, ?_⟩
          intro x hx
          simp only [List.length_cons, List.take_succ_cons] at hx
          rcases List.mem_cons.mp hx with hx | hx
          · subst hx
            simp [isGoodAck, hk]
            omega
          · exact hgood x hx
      | .Data => rw [hk] at h; exact absurd h (by simp)
      | .DataContinue => rw [hk] at h; exact absurd h (by simp)
      | .DataLast => rw [hk] at h; exact absurd h (by simp)
      | .Error => rw [hk] at h; exact absurd h (by simp)
      | .Reserved => rw [hk] at h; exact absurd h (by simp)

lemma expectedPackets_map_kind (id cc : Nat) :
    ∀ (cs : List (List Nat)) (i : Nat),
      (expectedPackets id cc i cs).map (fun p => p.header.kind) =
        (List.range cs.length).map (fun j => chunkKind cc (i + j)) := by
  intro cs
  induction cs with
  | nil => intro i; simp [expectedPackets]
  | cons c cs' ih =>
    intro i
    simp only [expectedPackets, List.map_cons, List.length_cons, List.range_succ_eq_map,
      List.map_map]
    refine List.cons_eq_cons.mpr ⟨by simp [Packet.new], ?_⟩
    rw [ih (i + 1)]
    congr 1
    funext j
    simp only [Function.comp]
    congr 1
    omega

lemma chunks252_all_le (payload : List Nat) : ∀ c ∈ chunks252 payload, c.length ≤ 252 :=
  chunks252_length_le payload.length payload (le_refl _)

/-- Behaviour of `sendModel` under an all-ack script, stated on the model directly. -/
lemma sendModel_allAck (payload : List Nat) (id : Nat) (replies : List Reply)
    (h1 : (chunks252 payload).length ≤ replies.length)
    (h2 : ∀ r ∈ replies.take (chunks252 payload).length, isGoodAck id r = true) :
    sendModel payload id replies =
      some (expectedPackets id (payload.length / MAX_PACKET_DATA_SIZE) 0 (chunks252 payload),
        .ok ()) := by
  unfold sendModel
  rw [sendLoop_allAck id (payload.length / MAX_PACKET_DATA_SIZE) (chunks252 payload) 0
    replies [] (chunks252_all_le payload) h1 h2]
  simp

/-- C4: `send` succeeds exactly when every chunk, in order, is answered by
an `Ack` carrying the conversation id: (a) with enough matching acks it
transmits every chunk in order and returns `Ok`; (b) the first reply that is
not a matching `Ack` aborts immediately — only the chunks up to and
including the unacknowledged one have been transmitted, and the error is
`NoAckResponse` for a non-`Ack` kind and `UnexpectedConvoId` for an `Ack`
with the wrong conversation id; (c) success conversely forces every chunk
transmitted and every consumed reply a matching `Ack`. -/
theorem send_ack_protocol (payload : List Nat) (id : Nat) (replies : List Reply) :
    ((chunks252 payload).length ≤ replies.length →
      (∀ r ∈ replies.take (chunks252 payload).length, isGoodAck id r = true) →
      sendModel payload id replies =
        some (expectedPackets id (payload.length / MAX_PACKET_DATA_SIZE) 0 (chunks252 payload),
          .ok ()))
  ∧ (∀ pre post rp, replies = pre ++ .ok rp :: post →
      pre.length < (chunks252 payload).length →
      (∀ r ∈ pre, isGoodAck id r = true) →
      isGoodAck id (.ok rp) = false →
      sendModel payload id replies =
        some (expectedPackets id (payload.length / MAX_PACKET_DATA_SIZE) 0
            ((chunks252 payload).take (pre.length + 1)),
          .error (if rp.header.kind = Kind.Ack
            then .UnexpectedConvoId id rp.header.convo else .NoAckResponse)))
  ∧ (∀ out, sendModel payload id replies = some (out, .ok ()) →
      out = expectedPackets id (payload.length / MAX_PACKET_DATA_SIZE) 0 (chunks252 payload) ∧
        (chunks252 payload).length ≤ replies.length ∧
        ∀ r ∈ replies.take (chunks252 payload).length, isGoodAck id r = true) := by
  refine ⟨?_, ?_, ?_⟩
  · intro hlen hgood
    exact sendModel_allAck payload id replies hlen hgood
  · intro pre post rp hre hlen hgood hbad
    unfold sendModel
    rw [hre]
    rw [sendLoop_firstBad id (payload.length / MAX_PACKET_DATA_SIZE) pre (chunks252 payload) 0
      post rp [] (chunks252_all_le payload) hlen hgood hbad]
    simp
  · intro out h
    unfold sendModel at h
    obtain ⟨hout, hlen, hgood⟩ := sendLoop_ok_inv id (payload.length / MAX_PACKET_DATA_SIZE)
      (chunks252 payload) 0 replies [] out (chunks252_all_le payload) h
    exact ⟨by simpa using hout, hlen, hgood⟩

/-- C4 witness. -/
theorem send_ack_protocol_witness :
    sendModel [1, 2, 3] 5 [.ok (Packet.new .Ack 5 [])] =
      some (expectedPackets 5 ([1, 2, 3].length / MAX_PACKET_DATA_SIZE) 0
        (chunks252 [1, 2, 3]), .ok ()) :=
  (send_ack_protocol [1, 2, 3] 5 [.ok (Packet.new .Ack 5 [])]).1 (by decide) (by decide)

set_option maxRecDepth 100000 in
/-- C3 counterexample: a payload of exactly `3 * max` bytes is split into
three chunks tagged `Data, DataContinue, DataContinue` — not
`Data, DataContinue, DataLast` as claimed: the computed final index
`payload.len() / max = 3` is never reached by the three emitted chunks. -/
theorem send_tagging_exact_multiple :
    (sendModel (List.replicate (3 * MAX_PACKET_DATA_SIZE) 0) 7
        [.ok (Packet.new .Ack 7 []), .ok (Packet.new .Ack 7 []),
          .ok (Packet.new .Ack 7 [])]).map
      (fun r => (r.1.map (fun p => p.header.kind), r.2))
      = some ([Kind.Data, Kind.DataContinue, Kind.DataContinue], .ok ()) ∧
    ([Kind.Data, Kind.DataContinue, Kind.DataContinue] : List Kind) ≠
      [Kind.Data, Kind.DataContinue, Kind.DataLast] := by
  constructor
  · have h := sendModel_allAck (List.replicate (3 * MAX_PACKET_DATA_SIZE) 0) 7
      [.ok (Packet.new .Ack 7 []), .ok (Packet.new .Ack 7 []),
        .ok (Packet.new .Ack 7 [])] (by decide) (by decide)
    rw [h]
    rfl
  · decide

set_option maxRecDepth 100000 in
/-- C3 (amended): `send` tags chunk `i` as `DataLast` when `i` equals
`payload.len() / max` (max = 252), as `Data` when `i` is 0 and 0 is not that
final index, and as `DataContinue` otherwise; consequently a payload of
length `3 * max` splits into `Data, DataContinue, DataContinue` — the
computed final index 3 is never reached for an exact multiple. -/
theorem send_chunk_tagging (payload : List Nat) (id : Nat) (replies : List Reply)
    (h1 : (chunks252 payload).length ≤ replies.length)
    (h2 : ∀ r ∈ replies.take (chunks252 payload).length, isGoodAck id r = true) :
    (sendModel payload id replies).map (fun r => (r.1.map (fun p => p.header.kind), r.2)) =
      some ((List.range (chunks252 payload).length).map
        (fun i => if i = payload.length / MAX_PACKET_DATA_SIZE then Kind.DataLast
          else if i = 0 then Kind.Data else Kind.DataContinue), .ok ())
  ∧ (sendModel (List.replicate (3 * MAX_PACKET_DATA_SIZE) 0) 3
        [.ok (Packet.new .Ack 3 []), .ok (Packet.new .Ack 3 []),
          .ok (Packet.new .Ack 3 [])]).map
      (fun r => (r.1.map (fun p => p.header.kind), r.2))
      = some ([Kind.Data, Kind.DataContinue, Kind.DataContinue], .ok ()) := by
  constructor
  · have h := sendModel_allAck payload id replies h1 h2
    rw [h]
    rw [Option.map_some']
    rw [expectedPackets_map_kind]
    simp [chunkKind]
  · have h := sendModel_allAck (List.replicate (3 * MAX_PACKET_DATA_SIZE) 0) 3
      [.ok (Packet.new .Ack 3 []), .ok (Packet.new .Ack 3 []),
        .ok (Packet.new .Ack 3 [])] (by decide) (by decide)
    rw [h]
    rfl

/-- C3 witness. -/
theorem send_chunk_tagging_witness :
    (sendModel [9] 2 [.ok (Packet.new .Ack 2 [])]).map
      (fun r => (r.1.map (fun p => p.header.kind), r.2)) =
      some ((List.range (chunks252 [9]).length).map
        (fun i => if i = [9].length / MAX_PACKET_DATA_SIZE then Kind.DataLast
          else if i = 0 then Kind.Data else Kind.DataContinue), .ok ()) :=
  (send_chunk_tagging [9] 2 [.ok (Packet.new .Ack 2 [])] (by decide) (by decide)).1

/-- C10: `send` with an empty payload returns `Ok(())` immediately: the
chunk iterator yields nothing, so no packet is transmitted and no reply is
consumed, whatever the peer script holds. -/
theorem send_empty_payload (id : Nat) (replies : List Reply) :
    sendModel [] id replies = some ([], .ok ()) := rfl

/-! ## Buffered stream claims -/

/-- C7 counterexample: after pulling everything available, `buffer()`
reports `WouldBlock`, not success, contradicting the claim that running out
of data is reported as `Ok`. -/
theorem rxBuffer_exhaustion_not_ok :
    rxBuffer ⟨[.ready 1, .ready 2], []⟩ = (⟨[], [1, 2]⟩, .wouldBlock) ∧
    (rxBuffer ⟨[.ready 1, .ready 2], []⟩).2 ≠ .ok () := by
  decide

/-- C7 (amended): `buffer()` appends to the queue every byte immediately
available from the raw source and stops at the first would-block or hard
error; a hard error propagates, and exhaustion is reported as a would-block
result — the call never returns `Ok`. -/
theorem buffer_pulls_all_available (script : List RawOutcome) (buf : List Nat) :
    (rxBuffer ⟨script, buf⟩).1.buf = buf ++ (pullAvail script).1 ∧
    (rxBuffer ⟨script, buf⟩).1.script = (pullAvail script).2.2 ∧
    (rxBuffer ⟨script, buf⟩).2 =
      (if (pullAvail script).2.1 then NbRes.other else NbRes.wouldBlock) ∧
    ∀ u : Unit, (rxBuffer ⟨script, buf⟩).2 ≠ .ok u := by
  refine ⟨rfl, rfl, rfl, ?_⟩
  intro u
  have h2 : (rxBuffer ⟨script, buf⟩).2 =
      (if (pullAvail script).2.1 then NbRes.other else NbRes.wouldBlock) := rfl
  rw [h2]
  by_cases h : (pullAvail script).2.1 <;> simp [h]

/-- C1: `BufferedTx::flush` pops a byte before attempting the raw write, so
a would-block loses that byte: `write_all([1, 2])` against a sink that
accepts one byte per attempt delivers byte 1, silently drops byte 2 (the
queue is left empty), and no later flush can transmit it. -/
theorem bufferedTx_flush_drops_byte :
    txWriteAll ⟨[.accept, .wouldBlock, .accept, .accept], [], []⟩ [1, 2] =
      (⟨[.accept, .accept], [1], []⟩, .wouldBlock) ∧
    txFlush ⟨[.accept, .accept], [1], []⟩ =
      (⟨[.accept, .accept], [1], []⟩, .wouldBlock) := by
  decide

/-- C2: on a structural/integrity decode error the receive paths consume no
buffered byte: `FrameRx::recv` performs `self.rx.rx.read()` — a read of the
raw source, discarding a fresh wire byte when one is pending — and leaves
the buffered start delimiter in place, so the next call hits the same
`CrcMismatch` again; the free `recv_frame` consumes nothing at all. -/
theorem recv_error_consumes_nothing :
    frameRxRecv ⟨[], [0x55, 0, 99, 0xAA]⟩ =
      (⟨[], [0x55, 0, 99, 0xAA]⟩, .frameErr (.CrcMismatch 0 99 [0x55, 0, 99, 0xAA])) ∧
    recv_frame ⟨[], [0x55, 0, 99, 0xAA]⟩ =
      (⟨[], [0x55, 0, 99, 0xAA]⟩, .other (.CrcMismatch 0 99 [0x55, 0, 99, 0xAA])) ∧
    frameRxRecv ⟨[.ready 0x55], [0x55, 0, 99, 0xAA]⟩ =
      (⟨[], [0x55, 0, 99, 0xAA]⟩, .frameErr (.CrcMismatch 0 99 [0x55, 0, 99, 0xAA])) := by
  decide

end EmbedSerial
